import Mathlib

/-!
A shallow embedding of the table-management / backup-restore core of the
`Database-using-Service` repository (Go + Gin + GORM + PostgreSQL).

The authoritative handler file is the `controllers` package served by the
routed `main.go` (the one that registers `RestoreTable`, `BackupTable`,
`GetTableData`, ...).  Each definition below translates one Go function or
one self-contained piece of one:

  * `isValidIdentifier`      — controllers.isValidIdentifier
  * `processColumns`         — the column-validation loop of CreateTable
  * `createTable`            — controllers.CreateTable
  * `getTableInfo`           — controllers.GetTableInfo
  * `alterTable`             — controllers.AlterTable
  * `executeQuery`           — controllers.ExecuteQuery
  * `exportQueryResults`     — controllers.ExportQueryResults (its guard)
  * `exportTableToWriter`    — controllers.exportTableToWriter
  * `restoreTable`           — controllers.RestoreTable
  * `restoreTableFromZip`    — controllers.restoreTableFromZip
  * `restoreDB`              — controllers.RestoreDB

Modelling conventions:
  * A cell value is `Option String` (`none` = SQL NULL).  All claims under
    study treat values stringly (everything flows through CSV text), so the
    engine's native typing is represented by the string form the Go code
    itself produces (`fmt.Sprintf("%v", v)`); type-coercion failures of the
    engine are outside the model.
  * The database engine is modelled semantically: catalog reads never fail,
    DDL/DML statements fail exactly on the structural conditions PostgreSQL
    would reject (existing table on CREATE, unknown column on INSERT/ALTER,
    arity mismatch, duplicate column names, syntactically invalid unquoted
    identifiers).  Unquoted identifiers in generated DDL fold to lowercase,
    as PostgreSQL folds them.  The engine's per-type value parser on the
    typed insert path is abstracted as an `accepts` parameter (PostgreSQL
    accepts every string in a TEXT column but rejects, e.g., the empty
    literal in an INTEGER one).
  * GORM's `Find(&[]map[string]interface{})` yields Go maps; Go map
    iteration order is unspecified.  Functions that iterate map keys
    (`exportTableToWriter`) therefore take the enumeration order as an
    explicit parameter, constrained to be a permutation of the column set.
  * A transaction is explicit state passing: a handler returns the
    post-state on commit and the untouched pre-state on every rollback path.
-/

namespace DBService

/-- HTTP-level error taxonomy of the handlers (each constructor corresponds
to one distinct error response emitted by the Go code). -/
inductive ErrKind where
  | noError
  | badFormat
  | invalidTableName
  | invalidColumnName
  | duplicateColumn
  | unsupportedType
  | tableExists
  | notFound
  | metaNotFound
  | forbidden
  | csvError
  | execError
  deriving Repr, DecidableEq

/-- An HTTP response: status code plus which error branch produced it. -/
structure Resp where
  status : Nat
  kind : ErrKind
  deriving Repr, DecidableEq

/-- A live catalog column: name and declared type token. -/
structure Column where
  name : String
  colType : String
  deriving Repr, DecidableEq

/-- A live table: columns in ordinal (creation) order, rows as value lists
aligned with the columns. -/
structure Table where
  cols : List Column
  rows : List (List (Option String))
  deriving Repr, DecidableEq

/-- model.TableMeta: the tool's own record of a table's originally
requested column specs (stored as a JSON array of `"name:type"` strings;
modelled as the decoded list). -/
structure TableMeta where
  name : String
  columns : List String
  deriving Repr, DecidableEq

/-- Database state: live tables (an association list keyed by table name)
plus the TableMeta store. -/
structure DBState where
  tables : List (String × Table)
  metas : List TableMeta
  deriving Repr, DecidableEq

/-- Catalog lookup of a table by exact name. -/
def lookupTable (tbls : List (String × Table)) (n : String) : Option Table :=
  (tbls.find? (fun p => p.1 == n)).map (·.2)

/-- Effect of `DROP TABLE IF EXISTS n`. -/
def removeTable (tbls : List (String × Table)) (n : String) : List (String × Table) :=
  tbls.filter (fun p => !(p.1 == n))

/-- Effect of (re)creating table `n` with content `t` (drop any old entry,
register the new one). -/
def setTable (tbls : List (String × Table)) (n : String) (t : Table) :
    List (String × Table) :=
  removeTable tbls n ++ [(n, t)]

/-- controllers.isValidIdentifier: Go regexp
`^[a-zA-Z_][a-zA-Z0-9_]*$` (full match, ASCII). -/
def isValidIdentifier (s : String) : Bool :=
  match s.toList with
  | [] => false
  | c :: cs => (c.isAlpha || c == '_') && cs.all (fun d => d.isAlphanum || d == '_')

/-- Does `needle` occur as a contiguous sublist of `haystack`? -/
def occursIn (needle haystack : List Char) : Bool :=
  match haystack with
  | [] => needle.isEmpty
  | _ :: tail => needle.isPrefixOf haystack || occursIn needle tail

/-- `strings.ToUpper`, character-wise (the denylist tokens are ASCII, so
ASCII uppercasing is the relevant behaviour). -/
def goToUpper (cs : List Char) : List Char :=
  cs.map Char.toUpper

/-- `strings.ToLower`, character-wise (identifiers here are ASCII). -/
def goToLower (s : String) : String :=
  String.mk (s.toList.map Char.toLower)

/-- The DROP/DELETE denylist of ExportQueryResults:
`strings.Contains(strings.ToUpper(q), "DROP") || strings.Contains(strings.ToUpper(q), "DELETE")`. -/
def forbiddenQuery (q : String) : Bool :=
  occursIn "DROP".toList (goToUpper q.toList)
    || occursIn "DELETE".toList (goToUpper q.toList)

/-- controllers.ExecuteQuery (POST /api/queries/execute): after the saved-
query statistics update, the raw query text is handed to `DB.Raw(...)`
unconditionally — there is no denylist on this endpoint.  `engineOk` says
whether the engine accepts the statement; the second component is the list
of raw user SQL texts actually sent to the database. -/
def executeQuery (q : String) (engineOk : String → Bool) : Resp × List String :=
  (if engineOk q then ⟨200, .noError⟩ else ⟨500, .execError⟩, [q])

/-- controllers.ExportQueryResults (POST /api/export/query): the denylist is
checked first; only if it passes is the query sent to the engine. -/
def exportQueryResults (q : String) (engineOk : String → Bool) : Resp × List String :=
  if forbiddenQuery q then (⟨403, .forbidden⟩, [])
  else (if engineOk q then ⟨200, .noError⟩ else ⟨400, .execError⟩, [q])

/-- A parsed `"name:type"` column spec. -/
structure ColSpec where
  name : String
  colType : String
  deriving Repr, DecidableEq

/-- Go `strings.SplitN(s, ":", 2)`: `none` when `s` has no colon, otherwise
the part before the first colon and everything after it. -/
def splitColon2 (s : String) : Option (String × String) :=
  match s.toList.findIdx? (fun c => c == ':') with
  | none => none
  | some i => some (String.mk (s.toList.take i), String.mk (s.toList.drop (i + 1)))

/-- The fixed type allow-list of CreateTable. -/
def validTypes : List String :=
  ["INTEGER", "SERIAL", "VARCHAR(255)", "TEXT", "BOOLEAN", "DATE",
   "TIMESTAMP", "FLOAT", "JSON", "UUID"]

/-- The per-column validation loop of CreateTable, in source order: for each
spec, first the `name:type` split, then the identifier check, then the
duplicate check against names seen so far, then the type allow-list. -/
def processColumns (cols : List String) (seen : List String) :
    Except ErrKind (List ColSpec) :=
  match cols with
  | [] => .ok []
  | c :: rest =>
    match splitColon2 c with
    | none => .error .badFormat
    | some (name, colType) =>
      if !isValidIdentifier name then .error .invalidColumnName
      else if seen.contains name then .error .duplicateColumn
      else if !validTypes.contains colType then .error .unsupportedType
      else
        match processColumns rest (name :: seen) with
        | .error e => .error e
        | .ok tail => .ok (⟨name, colType⟩ :: tail)

/-- controllers.CreateTable (POST /api/tables).  Branches in source order:
request binding (`min=1` on columns), table-name validation, the
existence probe (which lowercases the name), the column loop, the implicit
`id SERIAL PRIMARY KEY` when no column is SERIAL, then `CREATE TABLE` plus
the TableMeta insert inside one transaction (each failure rolls back).
The generated `CREATE TABLE` uses unquoted identifiers, which PostgreSQL
folds to lowercase: the catalog registers the folded table and column
names (which is why the probe lowercases), while TableMeta stores the
verbatim request name. -/
def createTable (st : DBState) (name : String) (reqCols : List String) :
    Resp × DBState :=
  if reqCols.isEmpty then (⟨400, .badFormat⟩, st)
  else if !isValidIdentifier name then (⟨400, .invalidTableName⟩, st)
  else if (lookupTable st.tables (goToLower name)).isSome then (⟨409, .tableExists⟩, st)
  else
    match processColumns reqCols [] with
    | .error e => (⟨400, e⟩, st)
    | .ok specs =>
      let hasSerial := specs.any (fun s => s.colType == "SERIAL")
      let allSpecs := if hasSerial then specs else specs ++ [⟨"id", "SERIAL"⟩]
      -- engine: the TableMeta insert fails on the unique name index
      if st.metas.any (fun m => m.name == name) then (⟨500, .execError⟩, st)
      else
        (⟨201, .noError⟩,
         ⟨setTable st.tables (goToLower name)
            ⟨allSpecs.map (fun s => ⟨goToLower s.name, s.colType⟩), []⟩,
          st.metas ++ [⟨name, reqCols⟩]⟩)

/-- controllers.GetTableInfo (GET /api/tables/:name/info): first the
TableMeta lookup (404 when absent), then the catalog column listing in
ordinal order (an empty result set is not an error). -/
def getTableInfo (st : DBState) (tableName : String) :
    Except Resp (String × List Column) :=
  match st.metas.find? (fun m => m.name == tableName) with
  | none => .error ⟨404, .metaNotFound⟩
  | some m =>
    .ok (m.name, ((lookupTable st.tables tableName).map (·.cols)).getD [])

/-- The JSON body of an AlterTable request (`type` is empty when omitted). -/
structure AlterReq where
  action : String
  column : String
  colType : String
  deriving Repr, DecidableEq

/-- controllers.AlterTable (PUT /api/tables/:name/columns/:column): table
existence probe, then the SQL is composed by direct interpolation of the
request's column (and type) strings — the function never calls
isValidIdentifier.  The third component is the list of SQL statements
actually built and executed. -/
def alterTable (st : DBState) (table : String) (req : AlterReq) :
    Resp × DBState × List String :=
  match lookupTable st.tables table with
  | none => (⟨404, .notFound⟩, st, [])
  | some t =>
    if req.action == "add" then
      if req.colType == "" then (⟨400, .badFormat⟩, st, [])
      else
        let sql := "ALTER TABLE " ++ table ++ " ADD COLUMN " ++ req.column
                     ++ " " ++ req.colType
        -- engine: ADD COLUMN fails when the column already exists
        if (t.cols.map (·.name)).contains req.column then
          (⟨500, .execError⟩, st, [sql])
        else
          (⟨200, .noError⟩,
           ⟨setTable st.tables table
              { t with cols := t.cols ++ [⟨req.column, req.colType⟩],
                       rows := t.rows.map (fun r => r ++ [none]) },
            st.metas⟩, [sql])
    else if req.action == "drop" then
      let sql := "ALTER TABLE " ++ table ++ " DROP COLUMN " ++ req.column
      match (t.cols.map (·.name)).indexOf? req.column with
      | none => (⟨500, .execError⟩, st, [sql])
      | some i =>
        (⟨200, .noError⟩,
         ⟨setTable st.tables table
            ⟨t.cols.eraseIdx i, t.rows.map (fun r => r.eraseIdx i)⟩,
          st.metas⟩, [sql])
    else (⟨400, .badFormat⟩, st, [])

/-- The value-to-string conversion of exportTableToWriter: `nil` becomes the
empty string, everything else its string form (byte slices decode to their
text, times to RFC3339 — both already strings in this model). -/
def encodeCell : Option String → String
  | none => ""
  | some s => s

/-- The double-quote character. -/
def dquote : Char := Char.ofNat 34

/-- The single-quote character. -/
def squote : Char := Char.ofNat 39

/-- `strings.ReplaceAll(s, q, qq)` for a one-character pattern: every
occurrence of `c` is replaced by two copies of it. -/
def doubleChar (c : Char) (cs : List Char) : List Char :=
  cs.flatMap (fun d => if d == c then [c, c] else [d])

/-- The manual "escaping" step of exportTableToWriter: double every `"`,
then wrap in quotes when the result contains a comma or a quote.  (The
result is afterwards handed to Go's `csv.Writer`, which applies RFC-4180
quoting on top; records below are modelled at field level, i.e. after the
writer/reader round-trip, so this mangling is visible in the field text.) -/
def csvField (s : String) : String :=
  let cs := doubleChar dquote s.toList
  if cs.any (fun c => c == ',' || c == dquote) then String.mk ([dquote] ++ cs ++ [dquote])
  else String.mk cs

/-- `row[h]` for a row map: the value of column `h`, `none` (Go `nil`) when
`h` is not a column of the table. -/
def rowCell (t : Table) (row : List (Option String)) (h : String) : Option String :=
  match (t.cols.map (·.name)).indexOf? h with
  | some i => (row.get? i).getD none
  | none => none

/-- controllers.exportTableToWriter, at CSV-record level.  `hdr` is the key
enumeration order of the Go map `results[0]` (Go map iteration order is
unspecified; callers constrain it to a permutation of the column names).
A table with zero rows produces no records at all — the header is only
written when at least one row exists.  Engine read errors and writer I/O
errors are the only failure paths in the Go code and are outside the
model, so the function is total and "succeeds". -/
def exportTableToWriter (t : Table) (hdr : List String) : List (List String) :=
  if t.rows.isEmpty then []
  else hdr :: t.rows.map (fun r => hdr.map (fun h => csvField (encodeCell (rowCell t r h))))

/-- RestoreTable's per-cell SQL literal: the exact code
`if v == "NULL" { "NULL" } else { fmt.Sprintf("'%s'", ReplaceAll(v, "'", "''")) }`. -/
def restoreCellSQL (v : String) : String :=
  if v == "NULL" then "NULL"
  else String.mk ([squote] ++ doubleChar squote v.toList ++ [squote])

/-- What the engine stores for a RestoreTable cell literal: SQL NULL for the
bare keyword, otherwise the unescaped text itself. -/
def restoreCellVal (v : String) : Option String :=
  if v == "NULL" then none else some v

/-- restoreTableFromZip's per-cell SQL literal: every cell is quoted
(`fmt.Sprintf("'%s'", ReplaceAll(v, "'", "''"))`) — there is no NULL branch
on this path. -/
def zipRestoreCellSQL (v : String) : String :=
  String.mk ([squote] ++ doubleChar squote v.toList ++ [squote])

/-- What the engine stores for a restoreTableFromZip cell literal: always
the text itself, never SQL NULL. -/
def zipRestoreCellVal (v : String) : Option String :=
  some v

/-- Are all strings in the list distinct? -/
def allDistinct : List String → Bool
  | [] => true
  | x :: xs => !xs.contains x && allDistinct xs

/-- Is a cell acceptable to the engine for a column of the given type?
SQL NULL is accepted by every column here (NOT NULL constraints are outside
the model); a text literal must pass the input parser of the column's type.
That parser is engine behaviour, abstracted as the `accepts` parameter:
PostgreSQL accepts every string for TEXT/VARCHAR but rejects, e.g., the
empty literal for INTEGER. -/
def cellAccepted (accepts : String → String → Bool) (colType : String) :
    Option String → Bool
  | none => true
  | some v => accepts colType v

/-- Does every cell of a row pass its column's input parser? -/
def rowAccepted (accepts : String → String → Bool) (cols : List Column)
    (row : List (Option String)) : Bool :=
  (cols.zip row).all (fun p => cellAccepted accepts p.1.colType p.2)

/-- Engine semantics of `INSERT INTO t (hs...) VALUES (vals...)`: fails when
the arity differs, some listed column is not a column of the table, a
column is listed more than once, or some value is rejected by its target
column's input parser (`accepts`); otherwise appends a row aligned with the
table's columns (columns not listed receive their default, here NULL). -/
def insertRow (accepts : String → String → Bool) (t : Table) (hs : List String)
    (vals : List (Option String)) : Except ErrKind Table :=
  if hs.length != vals.length then .error .execError
  else if !(hs.all (fun h => (t.cols.map (·.name)).contains h)) then .error .execError
  else if !allDistinct hs then .error .execError
  else if !(rowAccepted accepts t.cols
      (t.cols.map (fun c =>
        match hs.indexOf? c.name with
        | some i => (vals.get? i).getD none
        | none => none))) then .error .execError
  else
    .ok { t with
          rows := t.rows ++
            [t.cols.map (fun c =>
              match hs.indexOf? c.name with
              | some i => (vals.get? i).getD none
              | none => none)] }

/-- A CSV record as delivered by Go's `csv.Reader`: `some fields`, or `none`
when that read returns a non-EOF error (malformed quoting, ragged record). -/
abbrev CSVRec := Option (List String)

/-- The data-row loop of RestoreTable: each record builds an
`INSERT INTO name (headers) VALUES (...)` with restoreCellSQL literals; a
record read error aborts with the CSV error, a failing insert with the
execution error. -/
def restoreTableRows (accepts : String → String → Bool) (t : Table)
    (hs : List String) : List CSVRec → Except ErrKind Table
  | [] => .ok t
  | none :: _ => .error .csvError
  | some r :: rest =>
    match insertRow accepts t hs (r.map restoreCellVal) with
    | .error e => .error e
    | .ok t' => restoreTableRows accepts t' hs rest

/-- controllers.RestoreTable (POST /api/tables/:name/restore): existence
probe (404), header read (400 on empty/unreadable first record), then one
transaction: TRUNCATE, re-insert every data row; any failure rolls the
whole import back to the pre-restore state. -/
def restoreTable (accepts : String → String → Bool) (st : DBState)
    (tableName : String) (content : List CSVRec) : Resp × DBState :=
  match lookupTable st.tables tableName with
  | none => (⟨404, .notFound⟩, st)
  | some t =>
    match content with
    | [] => (⟨400, .csvError⟩, st)
    | none :: _ => (⟨400, .csvError⟩, st)
    | some hs :: rest =>
      match restoreTableRows accepts { t with rows := [] } hs rest with
      | .error .csvError => (⟨400, .csvError⟩, st)
      | .error e => (⟨500, e⟩, st)
      | .ok t' => (⟨200, .noError⟩, ⟨setTable st.tables tableName t', st.metas⟩)

/-- One entry of an uploaded backup ZIP.  The raw bytes are represented by
both of their possible interpretations: `csvRecords` is what `csv.Reader`
yields on them, `metaRecords` what `json.Unmarshal` into `[]TableMeta`
yields (RestoreDB ignores unmarshal errors, leaving the slice empty, so a
failed parse is the empty list). -/
structure ZipEntry where
  name : String
  csvRecords : List CSVRec
  metaRecords : List TableMeta
  deriving Repr, DecidableEq

/-- The data-row loop of restoreTableFromZip: `INSERT INTO t VALUES (...)`
without a column list, so the engine requires the record arity to equal the
column count; every cell is inserted as a quoted literal
(zipRestoreCellVal — no NULL mapping on this path). -/
def zipRestoreRows (t : Table) : List CSVRec → Except ErrKind Table
  | [] => .ok t
  | none :: _ => .error .csvError
  | some r :: rest =>
    if r.length != t.cols.length then .error .execError
    else zipRestoreRows { t with rows := t.rows ++ [r.map zipRestoreCellVal] } rest

/-- The table a zip entry's CSV content reconstructs: header row becomes the
all-TEXT column list (`CREATE TABLE name (h1 TEXT, ..., hn TEXT)` — the
engine rejects duplicate or syntactically invalid header identifiers), then
every data record is bulk-inserted. -/
def zipTableOf (recs : List CSVRec) : Except ErrKind Table :=
  match recs with
  | [] => .error .csvError
  | none :: _ => .error .csvError
  | some hs :: rest =>
    if !(hs.all isValidIdentifier) then .error .execError
    else if !allDistinct hs then .error .execError
    else zipRestoreRows ⟨hs.map (fun h => ⟨h, "TEXT"⟩), []⟩ rest

/-- controllers.restoreTableFromZip: header read, `DROP TABLE IF EXISTS`
(a syntactically invalid table name makes the statement fail), re-CREATE
with all-TEXT columns, bulk insert.  Drop-then-create is replacing the
catalog entry, i.e. `setTable`.  On success the catalog maps the entry name
to the reconstructed table; on any error the caller rolls back. -/
def restoreTableFromZip (tbls : List (String × Table)) (tableName : String)
    (recs : List CSVRec) : Except ErrKind (List (String × Table)) :=
  match recs with
  | [] => .error .csvError
  | none :: _ => .error .csvError
  | some _ :: _ =>
    if !isValidIdentifier tableName then .error .execError
    else
      match zipTableOf recs with
      | .error e => .error e
      | .ok t => .ok (setTable tbls tableName t)

/-- `strings.HasSuffix`. -/
def stringEndsWith (s suffix : String) : Bool :=
  suffix.toList.reverse.isPrefixOf s.toList.reverse

/-- Which entries the table loop of RestoreDB processes: every entry whose
name ends in `.csv` (and is not `_metadata.json`, which cannot end in
`.csv` anyway), restored under the name with the suffix trimmed
(`strings.TrimSuffix`). -/
def csvEntryName? (n : String) : Option String :=
  if stringEndsWith n ".csv" && !(n == "_metadata.json") then
    some (String.mk (n.toList.take (n.toList.length - ".csv".toList.length)))
  else none

/-- The table loop of RestoreDB over the archive entries, in archive order,
threading the transaction's table state. -/
def restoreTables (tbls : List (String × Table)) :
    List ZipEntry → Except ErrKind (List (String × Table))
  | [] => .ok tbls
  | e :: rest =>
    match csvEntryName? e.name with
    | none => restoreTables tbls rest
    | some tn =>
      match restoreTableFromZip tbls tn e.csvRecords with
      | .error err => .error err
      | .ok tbls' => restoreTables tbls' rest

/-- The metadata RestoreDB reads from the archive: the `_metadata.json`
entry's parsed records, or the empty list when the entry is absent (or its
JSON does not parse — those errors are ignored). -/
def parsedMetas (ar : List ZipEntry) : List TableMeta :=
  match ar.find? (fun e => e.name == "_metadata.json") with
  | some e => e.metaRecords
  | none => []

/-- controllers.RestoreDB (POST /api/restore): one transaction that replays
every `<table>.csv` entry (drop/recreate/bulk-insert) and then — only when
the parsed metadata list is non-empty — deletes all TableMeta rows and
inserts the archive's set (the insert fails on a duplicate name in that
set).  Every failure path rolls the transaction back, returning the
pre-restore state. -/
def restoreDB (st : DBState) (ar : List ZipEntry) : Resp × DBState :=
  let metas := parsedMetas ar
  match restoreTables st.tables ar with
  | .error _ => (⟨500, .execError⟩, st)
  | .ok tbls' =>
    if metas.isEmpty then (⟨200, .noError⟩, ⟨tbls', st.metas⟩)
    else if !allDistinct (metas.map (·.name)) then (⟨500, .execError⟩, st)
    else (⟨200, .noError⟩, ⟨tbls', metas⟩)

/-- The parsed name of a `"name:type"` column spec (the part before the
first colon), when the spec has one. -/
def specName? (c : String) : Option String :=
  (splitColon2 c).map (fun p => p.1)

/-- The parseable column names of a CreateTable request, in request order. -/
def specNames (cols : List String) : List String :=
  cols.filterMap specName?

/-!  ### Helper lemmas about the association-list catalog  -/

theorem find?_filter_of_imp {α : Type} (l : List α) (p q : α → Bool)
    (h : ∀ x, p x = true → q x = true) :
    (l.filter q).find? p = l.find? p := by
  induction l with
  | nil => rfl
  | cons a l ih =>
    by_cases hq : q a = true
    · cases hp : p a
      · rw [List.filter_cons_of_pos hq, List.find?_cons_of_neg _ (by simp [hp]),
          List.find?_cons_of_neg _ (by simp [hp]), ih]
      · rw [List.filter_cons_of_pos hq, List.find?_cons_of_pos _ hp,
          List.find?_cons_of_pos _ hp]
    · have hp : p a = false := by
        cases hpa : p a
        · rfl
        · exact absurd (h a hpa) hq
      rw [List.filter_cons_of_neg (by simp [hq]), List.find?_cons_of_neg _ (by simp [hp]), ih]

theorem lookupTable_setTable_self (tbls : List (String × Table)) (n : String) (t : Table) :
    lookupTable (setTable tbls n t) n = some t := by
  unfold lookupTable setTable removeTable
  rw [List.find?_append]
  have h1 : (tbls.filter (fun p => !(p.1 == n))).find? (fun p => p.1 == n) = none := by
    rw [List.find?_eq_none]
    intro x hx
    have hq := List.of_mem_filter hx
    simp only [Bool.not_eq_true'] at hq
    simp [hq]
  rw [h1]
  simp [List.find?]

theorem lookupTable_setTable_ne (tbls : List (String × Table)) (n n' : String) (t : Table)
    (h : n' ≠ n) : lookupTable (setTable tbls n t) n' = lookupTable tbls n' := by
  unfold lookupTable setTable removeTable
  rw [List.find?_append]
  have h1 := find?_filter_of_imp tbls (fun p => p.1 == n') (fun p => !(p.1 == n))
    (by intro x hx; simp only [beq_iff_eq] at hx; simp [hx, h])
  rw [h1]
  have h2 : (([(n, t)] : List (String × Table)).find? (fun p => p.1 == n')) = none := by
    rw [List.find?_eq_none]
    intro x hx
    simp only [List.mem_singleton] at hx
    subst hx
    simp only [beq_iff_eq]
    exact fun he => absurd he.symm h
  rw [h2]
  simp

theorem allDistinct_iff (l : List String) : allDistinct l = true ↔ l.Nodup := by
  induction l with
  | nil => simp [allDistinct]
  | cons x xs ih =>
    simp only [allDistinct, Bool.and_eq_true, Bool.not_eq_true', List.nodup_cons, ← ih]
    constructor
    · rintro ⟨h1, h2⟩
      refine ⟨fun hmem => ?_, h2⟩
      have hx : xs.contains x = true := by
        simp only [List.contains, List.elem_eq_mem, decide_eq_true_eq]
        exact hmem
      rw [h1] at hx
      simp at hx
    · rintro ⟨h1, h2⟩
      refine ⟨?_, h2⟩
      by_contra hc
      simp only [Bool.not_eq_false] at hc
      refine h1 ?_
      simpa [List.contains] using hc

/-!  ### C1 — the DROP/DELETE denylist  -/

/-- C1 (counterexample): the claim says `"DROP TABLE items"` is rejected
with 403 by the free-form query-execution endpoint before any SQL reaches
the database; in fact ExecuteQuery has no denylist — with an engine that
accepts the statement it responds 200 and the query text is sent. -/
theorem executeQuery_drop_reaches_db :
    ¬ ((executeQuery "DROP TABLE items" (fun _ => true)).1.status = 403
        ∧ (executeQuery "DROP TABLE items" (fun _ => true)).2 = []) := by
  simp [executeQuery]

/-- C1 (amended): the DROP/DELETE denylist guards only the query-export
endpoint: any query containing DROP or DELETE (case-insensitive substring)
is answered 403 by ExportQueryResults with no SQL sent, while ExecuteQuery
applies no such check and always sends the query text to the database. -/
theorem denylist_guards_only_export (q : String) (engineOk : String → Bool)
    (h : forbiddenQuery q = true) :
    exportQueryResults q engineOk = (⟨403, .forbidden⟩, [])
    ∧ (executeQuery q engineOk).2 = [q] := by
  constructor
  · simp [exportQueryResults, h]
  · rfl

/-- Witness for `denylist_guards_only_export` at `"DROP TABLE items"`. -/
theorem denylist_guards_only_export_witness :
    forbiddenQuery "DROP TABLE items" = true
    ∧ (exportQueryResults "DROP TABLE items" (fun _ => true) = (⟨403, .forbidden⟩, [])
        ∧ (executeQuery "DROP TABLE items" (fun _ => true)).2 = ["DROP TABLE items"]) :=
  ⟨by decide, denylist_guards_only_export "DROP TABLE items" (fun _ => true) (by decide)⟩

/-!  ### C9 — GetTableInfo without metadata  -/

/-- C9 (counterexample): the claim says a live table without a TableMeta
record still gets its columns reported; in fact GetTableInfo on such a
table (here `"ext"`, present in the catalog, no metadata) responds 404. -/
theorem getTableInfo_no_meta_404 :
    getTableInfo ⟨[("ext", ⟨[⟨"a", "TEXT"⟩], []⟩)], []⟩ "ext"
      = .error ⟨404, .metaNotFound⟩ := rfl

/-- C9 (amended): whenever no TableMeta row matches the requested name —
whatever the live catalog holds — GetTableInfo fails with 404 "metadata
not found" instead of reporting the live columns. -/
theorem getTableInfo_requires_meta (st : DBState) (tableName : String)
    (h : st.metas.find? (fun m => m.name == tableName) = none) :
    getTableInfo st tableName = .error ⟨404, .metaNotFound⟩ := by
  unfold getTableInfo
  rw [h]

/-- Witness for `getTableInfo_requires_meta` on a catalog-only table. -/
theorem getTableInfo_requires_meta_witness :
    (DBState.mk [("ext2", ⟨[⟨"a", "TEXT"⟩], []⟩)] []).metas.find?
        (fun m => m.name == "ext2") = none
    ∧ getTableInfo ⟨[("ext2", ⟨[⟨"a", "TEXT"⟩], []⟩)], []⟩ "ext2"
        = .error ⟨404, .metaNotFound⟩ :=
  ⟨rfl, getTableInfo_requires_meta ⟨[("ext2", ⟨[⟨"a", "TEXT"⟩], []⟩)], []⟩ "ext2" rfl⟩

/-!  ### C10 — export of an empty table  -/

/-- C10: a table with zero rows exports to no CSV records at all — not even
a header row — while the export itself reports success, and the restore
path then fails on that empty file with the CSV-read error (it cannot read
a header), leaving the state unchanged. -/
theorem export_empty_table (accepts : String → String → Bool) (st : DBState)
    (tableName : String) (t : Table) (hdr : List String)
    (hlook : lookupTable st.tables tableName = some t)
    (hrows : t.rows = []) :
    exportTableToWriter t hdr = []
    ∧ restoreTable accepts st tableName ((exportTableToWriter t hdr).map some)
        = (⟨400, .csvError⟩, st) := by
  have he : exportTableToWriter t hdr = [] := by
    unfold exportTableToWriter
    rw [hrows]
    simp
  refine ⟨he, ?_⟩
  rw [he]
  unfold restoreTable
  rw [hlook]
  rfl

/-- Witness for `export_empty_table` on a one-column empty table. -/
theorem export_empty_table_witness :
    lookupTable [("emp", Table.mk [⟨"a", "TEXT"⟩] [])] "emp"
        = some (Table.mk [⟨"a", "TEXT"⟩] [])
    ∧ (exportTableToWriter (Table.mk [⟨"a", "TEXT"⟩] []) ["a"] = []
       ∧ restoreTable (fun _ _ => true) ⟨[("emp", Table.mk [⟨"a", "TEXT"⟩] [])], []⟩ "emp"
           ((exportTableToWriter (Table.mk [⟨"a", "TEXT"⟩] []) ["a"]).map some)
         = (⟨400, .csvError⟩, ⟨[("emp", Table.mk [⟨"a", "TEXT"⟩] [])], []⟩)) :=
  ⟨rfl, export_empty_table (fun _ _ => true) ⟨[("emp", Table.mk [⟨"a", "TEXT"⟩] [])], []⟩
    "emp" (Table.mk [⟨"a", "TEXT"⟩] []) ["a"] rfl rfl⟩

/-!  ### C7 — the exported header row  -/

/-- C7 (counterexample): the claim says the first exported record is the
column names in catalog (ordinal) order; with catalog columns `a, b` and
the legal Go-map enumeration `["b", "a"]` the first record is `["b", "a"]`,
not `["a", "b"]`. -/
theorem export_header_not_catalog_order :
    List.Perm ["b", "a"]
        ((Table.mk [⟨"a", "TEXT"⟩, ⟨"b", "TEXT"⟩] [[some "1", some "2"]]).cols.map
          (fun c => c.name))
    ∧ (exportTableToWriter (Table.mk [⟨"a", "TEXT"⟩, ⟨"b", "TEXT"⟩] [[some "1", some "2"]])
        ["b", "a"]).head? ≠ some ["a", "b"] := by
  constructor
  · decide
  · intro h
    simp [exportTableToWriter] at h

/-- C7 (amended): for a non-empty table the first exported record is the
header: the column names in Go-map enumeration order, i.e. some permutation
of the catalog's column names, not necessarily ordinal order. -/
theorem export_header_is_enumeration (t : Table) (hdr : List String)
    (hrows : t.rows ≠ []) (hperm : List.Perm hdr (t.cols.map (fun c => c.name))) :
    (exportTableToWriter t hdr).head? = some hdr
    ∧ List.Perm hdr (t.cols.map (fun c => c.name)) := by
  refine ⟨?_, hperm⟩
  unfold exportTableToWriter
  rw [if_neg]
  · rfl
  · intro hc
    exact hrows (by simpa using hc)

/-- Witness for `export_header_is_enumeration`. -/
theorem export_header_is_enumeration_witness :
    ((Table.mk [⟨"a", "TEXT"⟩, ⟨"b", "TEXT"⟩] [[some "1", none]]).rows ≠ []
      ∧ List.Perm ["b", "a"]
          ((Table.mk [⟨"a", "TEXT"⟩, ⟨"b", "TEXT"⟩] [[some "1", none]]).cols.map
            (fun c => c.name)))
    ∧ (exportTableToWriter (Table.mk [⟨"a", "TEXT"⟩, ⟨"b", "TEXT"⟩] [[some "1", none]])
        ["b", "a"]).head? = some ["b", "a"] :=
  ⟨⟨by simp, by decide⟩,
    (export_header_is_enumeration (Table.mk [⟨"a", "TEXT"⟩, ⟨"b", "TEXT"⟩] [[some "1", none]])
      ["b", "a"] (by simp) (by decide)).1⟩

/-!  ### C4 — AlterTable identifier validation  -/

/-- C4 (counterexample): the claim says an identifier failing the
`^[A-Za-z_][A-Za-z0-9_]*$` rule makes AlterTable fail before any SQL is
built; in fact with the invalid column identifier `"2cool"` (action drop,
table `t` exists) the ALTER TABLE statement is built and executed. -/
theorem alterTable_no_validation :
    isValidIdentifier "2cool" = false
    ∧ (alterTable ⟨[("t", Table.mk [⟨"a", "TEXT"⟩] [])], []⟩ "t"
        ⟨"drop", "2cool", ""⟩).2.2 = ["ALTER TABLE t DROP COLUMN 2cool"] :=
  ⟨rfl, rfl⟩

/-- C4 (amended): AlterTable validates no identifiers at all: whenever the
table exists (and, for add, a type is supplied), the request's column and
type strings are interpolated verbatim into the ALTER TABLE statement,
which is then executed, whatever those strings contain. -/
theorem alterTable_interpolates_raw (st : DBState) (table : String) (req : AlterReq)
    (t : Table) (hlook : lookupTable st.tables table = some t) :
    (req.action = "drop" →
      (alterTable st table req).2.2
        = ["ALTER TABLE " ++ table ++ " DROP COLUMN " ++ req.column])
    ∧ (req.action = "add" → req.colType ≠ "" →
      (alterTable st table req).2.2
        = ["ALTER TABLE " ++ table ++ " ADD COLUMN " ++ req.column ++ " " ++ req.colType]) := by
  obtain ⟨a, col, ty⟩ := req
  constructor
  · intro ha
    subst ha
    unfold alterTable
    rw [hlook]
    simp only [show (("drop" : String) == "add") = false from rfl,
      show (("drop" : String) == "drop") = true from rfl]
    simp only [Bool.false_eq_true, if_false, if_true]
    cases ((t.cols.map (fun c => c.name)).indexOf? col) <;> rfl
  · intro ha hty
    subst ha
    unfold alterTable
    rw [hlook]
    simp only [show (("add" : String) == "add") = true from rfl, if_true]
    rw [if_neg]
    · cases ((t.cols.map (fun c => c.name)).contains col) <;> rfl
    · intro hc
      exact hty (by simpa using hc)

/-- Witness for `alterTable_interpolates_raw` at the invalid identifier. -/
theorem alterTable_interpolates_raw_witness :
    lookupTable [("t", Table.mk [⟨"a", "TEXT"⟩] [])] "t"
        = some (Table.mk [⟨"a", "TEXT"⟩] [])
    ∧ (alterTable ⟨[("t", Table.mk [⟨"a", "TEXT"⟩] [])], []⟩ "t"
        ⟨"drop", "2cool", ""⟩).2.2 = ["ALTER TABLE t DROP COLUMN 2cool"] :=
  ⟨rfl, (alterTable_interpolates_raw ⟨[("t", Table.mk [⟨"a", "TEXT"⟩] [])], []⟩ "t"
    ⟨"drop", "2cool", ""⟩ (Table.mk [⟨"a", "TEXT"⟩] []) rfl).1 rfl⟩

/-!  ### Lemmas about insertRow  -/

theorem indexRebuild_eq (cols : List Column) (vals : List (Option String))
    (hnd : (cols.map (fun c => c.name)).Nodup) (hlen : vals.length = cols.length) :
    cols.map (fun c =>
      match (cols.map (fun c => c.name)).indexOf? c.name with
      | some i => (vals.get? i).getD none
      | none => none) = vals := by
  induction cols generalizing vals with
  | nil =>
    cases vals with
    | nil => rfl
    | cons v vs => simp at hlen
  | cons c0 cols ih =>
    cases vals with
    | nil => simp at hlen
    | cons v vs =>
      have hlen' : vs.length = cols.length := by simpa using hlen
      simp only [List.map_cons] at hnd
      rw [List.nodup_cons] at hnd
      obtain ⟨hnotmem, hnd'⟩ := hnd
      simp only [List.map_cons]
      congr 1
      · rw [List.indexOf?_cons]
        simp
      · have hcongr : ∀ c ∈ cols,
            (match (c0.name :: cols.map (fun c => c.name)).indexOf? c.name with
             | some i => ((v :: vs).get? i).getD none
             | none => none)
            = (match (cols.map (fun c => c.name)).indexOf? c.name with
               | some i => (vs.get? i).getD none
               | none => none) := by
          intro c hc
          have hmem : c.name ∈ cols.map (fun c => c.name) :=
            List.mem_map_of_mem _ hc
          have hne : (c0.name == c.name) = false := by
            simp only [beq_eq_false_iff_ne]
            intro he
            exact hnotmem (he ▸ hmem)
          rw [List.indexOf?_cons, if_neg (by simp [hne])]
          cases hio : (cols.map (fun c => c.name)).indexOf? c.name with
          | none => simp
          | some i => simp
        rw [List.map_congr_left hcongr]
        exact ih vs hnd' hlen'

theorem rowAccepted_of_forall (accepts : String → String → Bool)
    (cols : List Column) (row : List (Option String))
    (h : ∀ c ∈ cols, ∀ v : String, accepts c.colType v = true) :
    rowAccepted accepts cols row = true := by
  unfold rowAccepted
  rw [List.all_eq_true]
  intro p hp
  obtain ⟨c, val⟩ := p
  have hc : c ∈ cols := (List.of_mem_zip hp).1
  cases val with
  | none => rfl
  | some v => exact h c hc v

theorem insertRow_self_headers (accepts : String → String → Bool) (t : Table)
    (vals : List (Option String))
    (hnd : (t.cols.map (fun c => c.name)).Nodup) (hlen : vals.length = t.cols.length)
    (hacc : rowAccepted accepts t.cols vals = true) :
    insertRow accepts t (t.cols.map (fun c => c.name)) vals
      = .ok { t with rows := t.rows ++ [vals] } := by
  have h1 : ((t.cols.map (fun c => c.name)).length != vals.length) = false := by
    simp [hlen]
  have h2 : ((t.cols.map (fun c => c.name)).all
      (fun h => (t.cols.map (fun c => c.name)).contains h)) = true := by
    rw [List.all_eq_true]
    intro x hx
    simpa [List.contains] using List.elem_iff.mpr hx
  have h3 : allDistinct (t.cols.map (fun c => c.name)) = true := (allDistinct_iff _).mpr hnd
  unfold insertRow
  rw [h1, h2, h3]
  simp only [Bool.not_true, Bool.false_eq_true, if_false]
  rw [indexRebuild_eq t.cols vals hnd hlen, hacc]
  simp only [Bool.not_true, Bool.false_eq_true, if_false]

/-!  ### C8 — NULL handling on the two restore paths  -/

/-- C8 (counterexample): the claim says the full-restore path also maps the
cell `"NULL"` to SQL NULL; in fact restoreTableFromZip quotes every cell,
so the reconstructed table stores the four-letter text `some "NULL"`
(from the literal `\x27NULL\x27`), not SQL NULL. -/
theorem zip_restore_null_literal :
    zipTableOf [some ["a"], some ["NULL"]]
      = .ok ⟨[⟨"a", "TEXT"⟩], [[some "NULL"]]⟩
    ∧ zipRestoreCellSQL "NULL" = "\x27NULL\x27"
    ∧ restoreCellSQL "NULL" = "NULL" :=
  ⟨rfl, by decide, rfl⟩

/-- C8 (amended): on the single-table restore path a cell that is exactly
`NULL` is reinserted as SQL NULL and every other cell as a single-quoted
literal with embedded quotes doubled; the full-restore path builds the very
same quoted literal for non-NULL cells but quotes every cell
unconditionally, so there `NULL` stays a three-letter text value.  (The
claim is about the literal/keyword mapping, so the engine's value parser is
instantiated to accept everything — which it does on the zip path, whose
target tables are all-TEXT.) -/
theorem restore_null_asymmetry (t : Table) (r : List String)
    (hnd : (t.cols.map (fun c => c.name)).Nodup) (hlen : r.length = t.cols.length) :
    insertRow (fun _ _ => true) t (t.cols.map (fun c => c.name)) (r.map restoreCellVal)
      = .ok { t with rows := t.rows ++ [r.map restoreCellVal] }
    ∧ zipRestoreRows t [some r]
      = .ok { t with rows := t.rows ++ [r.map zipRestoreCellVal] }
    ∧ restoreCellVal "NULL" = none
    ∧ restoreCellSQL "NULL" = "NULL"
    ∧ zipRestoreCellSQL "NULL" = "\x27NULL\x27"
    ∧ (∀ v : String, v ≠ "NULL" →
        restoreCellVal v = some v ∧ restoreCellSQL v = zipRestoreCellSQL v)
    ∧ (∀ v : String, zipRestoreCellVal v = some v)
    ∧ zipRestoreCellSQL "a\x27b" = "\x27a\x27\x27b\x27" := by
  refine ⟨?_, ?_, rfl, rfl, by decide, ?_, fun v => rfl, by decide⟩
  · exact insertRow_self_headers (fun _ _ => true) t (r.map restoreCellVal) hnd
      (by simpa using hlen) (rowAccepted_of_forall _ _ _ (fun c _ v => rfl))
  · unfold zipRestoreRows
    rw [if_neg]
    · rfl
    · simp [hlen]
  · intro v hv
    refine ⟨?_, ?_⟩
    · unfold restoreCellVal
      rw [if_neg]
      simpa using hv
    · unfold restoreCellSQL zipRestoreCellSQL
      rw [if_neg]
      simpa using hv

theorem contains_false_iff (l : List String) (a : String) :
    l.contains a = false ↔ a ∉ l := by
  simp [List.contains]

theorem processColumns_ok_names (cols : List String) :
    ∀ (seen : List String) (specs : List ColSpec),
    processColumns cols seen = .ok specs →
    (∀ n ∈ specNames cols, seen.contains n = false)
    ∧ allDistinct (specNames cols) = true := by
  induction cols with
  | nil =>
    intro seen specs _
    refine ⟨?_, rfl⟩
    intro n hn
    simp [specNames] at hn
  | cons c rest ih =>
    intro seen specs h
    unfold processColumns at h
    cases hs : splitColon2 c with
    | none =>
      rw [hs] at h
      simp at h
    | some p =>
      obtain ⟨cname, cty⟩ := p
      rw [hs] at h
      have h' : (if (!isValidIdentifier cname) = true then
            (.error .invalidColumnName : Except ErrKind (List ColSpec))
          else if seen.contains cname = true then .error .duplicateColumn
          else if (!validTypes.contains cty) = true then .error .unsupportedType
          else match processColumns rest (cname :: seen) with
            | .error e => .error e
            | .ok tail => .ok (⟨cname, cty⟩ :: tail)) = .ok specs := h
      clear h
      cases hvi : isValidIdentifier cname <;> rw [hvi] at h'
      · simp at h'
      · simp only [Bool.not_true, Bool.false_eq_true, if_false] at h'
        cases hcon : seen.contains cname <;> rw [hcon] at h'
        · simp only [Bool.false_eq_true, if_false] at h'
          cases hvt : validTypes.contains cty <;> rw [hvt] at h'
          · simp at h'
          · simp only [Bool.not_true, Bool.false_eq_true, if_false] at h'
            cases hrec : processColumns rest (cname :: seen) <;> rw [hrec] at h'
            · simp at h'
            · obtain ⟨hseen, hdist⟩ := ih (cname :: seen) _ hrec
              have hnames : specNames (c :: rest) = cname :: specNames rest := by
                simp [specNames, List.filterMap_cons, specName?, hs]
              rw [hnames]
              constructor
              · intro n hn
                rcases List.mem_cons.mp hn with hn0 | hn1
                · subst hn0
                  exact hcon
                · have h5 := hseen n hn1
                  rw [contains_false_iff] at h5 ⊢
                  intro hmem
                  exact h5 (List.mem_cons_of_mem _ hmem)
              · simp only [allDistinct, Bool.and_eq_true, Bool.not_eq_true']
                refine ⟨?_, hdist⟩
                rw [contains_false_iff]
                intro hmem
                have h5 := hseen cname hmem
                rw [contains_false_iff] at h5
                exact h5 (List.mem_cons_self _ _)
        · simp at h'

/-- C5 (counterexample): the claim says a request with a duplicate column
name always fails with DuplicateColumn; for `["b:BAD", "b:BAD"]` the column
loop meets the unsupported type at position 1 first, so the request fails
with UnsupportedType instead. -/
theorem createTable_duplicate_other_error :
    allDistinct (specNames ["b:BAD", "b:BAD"]) = false
    ∧ (createTable ⟨[], []⟩ "t" ["b:BAD", "b:BAD"]).1.kind ≠ ErrKind.duplicateColumn
    ∧ (createTable ⟨[], []⟩ "t" ["b:BAD", "b:BAD"]).1 = ⟨400, .unsupportedType⟩ := by
  refine ⟨by decide, by decide, by decide⟩

/-- C5 (amended): a CreateTable request in which two column specs share the
same parsed column name always fails without creating a table or writing a
TableMeta row — with status 400, or 409 when the requested table name
already exists — and the error is DuplicateColumn exactly when the
duplicate is the first violation the column loop meets (valid and unused
table name, and every spec before the duplicate well-formed with a valid
identifier and an allowed type). -/
theorem createTable_duplicate_always_fails (st : DBState) (tableName : String)
    (cols : List String) (hdup : allDistinct (specNames cols) = false) :
    (((createTable st tableName cols).1.status = 400
        ∨ (createTable st tableName cols).1.status = 409)
      ∧ (createTable st tableName cols).2 = st)
    ∧ (isValidIdentifier tableName = true →
        lookupTable st.tables (goToLower tableName) = none →
        processColumns cols [] = .error .duplicateColumn →
        (createTable st tableName cols).1 = ⟨400, .duplicateColumn⟩) := by
  constructor
  · cases hemp : cols.isEmpty with
    | true =>
      rw [List.isEmpty_iff] at hemp
      subst hemp
      simp [specNames, allDistinct] at hdup
    | false =>
      cases hvi : isValidIdentifier tableName with
      | false =>
        exact ⟨Or.inl (by simp [createTable, hemp, hvi]), by simp [createTable, hemp, hvi]⟩
      | true =>
        cases hlk : (lookupTable st.tables (goToLower tableName)).isSome with
        | true =>
          exact ⟨Or.inr (by simp [createTable, hemp, hvi, hlk]),
            by simp [createTable, hemp, hvi, hlk]⟩
        | false =>
          cases hpc : processColumns cols [] with
          | error e =>
            exact ⟨Or.inl (by simp [createTable, hemp, hvi, hlk, hpc]),
              by simp [createTable, hemp, hvi, hlk, hpc]⟩
          | ok specs =>
            exact absurd (processColumns_ok_names cols [] specs hpc).2 (by simp [hdup])
  · intro hvi hlk hpc
    have hemp : cols.isEmpty = false := by
      cases h : cols.isEmpty
      · rfl
      · rw [List.isEmpty_iff] at h
        subst h
        simp [processColumns] at hpc
    have hlk' : (lookupTable st.tables (goToLower tableName)).isSome = false := by
      rw [hlk]
      rfl
    simp [createTable, hemp, hvi, hlk', hpc]

/-- Witness for `createTable_duplicate_always_fails` at the duplicate
request `["a:TEXT", "a:TEXT"]` on an empty database. -/
theorem createTable_duplicate_always_fails_witness :
    allDistinct (specNames ["a:TEXT", "a:TEXT"]) = false
    ∧ ((((createTable ⟨[], []⟩ "t" ["a:TEXT", "a:TEXT"]).1.status = 400
          ∨ (createTable ⟨[], []⟩ "t" ["a:TEXT", "a:TEXT"]).1.status = 409)
        ∧ (createTable ⟨[], []⟩ "t" ["a:TEXT", "a:TEXT"]).2 = ⟨[], []⟩)
      ∧ (isValidIdentifier "t" = true →
          lookupTable (DBState.mk [] []).tables (goToLower "t") = none →
          processColumns ["a:TEXT", "a:TEXT"] [] = .error .duplicateColumn →
          (createTable ⟨[], []⟩ "t" ["a:TEXT", "a:TEXT"]).1 = ⟨400, .duplicateColumn⟩)) :=
  ⟨by decide,
    createTable_duplicate_always_fails ⟨[], []⟩ "t" ["a:TEXT", "a:TEXT"] (by decide)⟩

/-!  ### C3 — CreateTable followed by GetTableInfo  -/

theorem restoreTableFromZip_ok (tbls : List (String × Table)) (tn : String)
    (recs : List CSVRec) (tbls' : List (String × Table))
    (h : restoreTableFromZip tbls tn recs = .ok tbls') :
    ∃ tb, zipTableOf recs = .ok tb ∧ tbls' = setTable tbls tn tb := by
  unfold restoreTableFromZip at h
  match recs, h with
  | [], h => simp at h
  | none :: _, h => simp at h
  | some hs :: rest, h =>
    have h' : (if (!isValidIdentifier tn) = true then
          (.error .execError : Except ErrKind (List (String × Table)))
        else match zipTableOf (some hs :: rest) with
          | .error e => .error e
          | .ok t => .ok (setTable tbls tn t)) = .ok tbls' := h
    cases hvi : isValidIdentifier tn <;> rw [hvi] at h'
    · simp at h'
    · simp only [Bool.not_true, Bool.false_eq_true, if_false] at h'
      cases hz : zipTableOf (some hs :: rest) <;> rw [hz] at h'
      · simp at h'
      · simp only [Except.ok.injEq] at h'
        exact ⟨_, rfl, h'.symm⟩

theorem restoreTables_preserves (entries : List ZipEntry) :
    ∀ (tbls tbls' : List (String × Table)) (tn : String),
    restoreTables tbls entries = .ok tbls' →
    (∀ e ∈ entries, csvEntryName? e.name ≠ some tn) →
    lookupTable tbls' tn = lookupTable tbls tn := by
  induction entries with
  | nil =>
    intro tbls tbls' tn h _
    unfold restoreTables at h
    simp only [Except.ok.injEq] at h
    rw [h]
  | cons e0 rest ih =>
    intro tbls tbls' tn h hn
    unfold restoreTables at h
    cases hcsv : csvEntryName? e0.name <;> rw [hcsv] at h
    · exact ih tbls tbls' tn h (fun e he => hn e (List.mem_cons_of_mem e0 he))
    · case some tn0 =>
      have hne : tn0 ≠ tn := by
        intro he
        exact hn e0 (List.mem_cons_self e0 rest) (by rw [hcsv, he])
      have h2 : (match restoreTableFromZip tbls tn0 e0.csvRecords with
          | .error err => (.error err : Except ErrKind (List (String × Table)))
          | .ok tbls1 => restoreTables tbls1 rest) = .ok tbls' := h
      clear h
      cases hr : restoreTableFromZip tbls tn0 e0.csvRecords <;> rw [hr] at h2
      · simp at h2
      · case ok tbls1 =>
        obtain ⟨tb, _, heq⟩ := restoreTableFromZip_ok tbls tn0 e0.csvRecords tbls1 hr
        rw [ih tbls1 tbls' tn h2 (fun e he => hn e (List.mem_cons_of_mem e0 he)), heq,
          lookupTable_setTable_ne tbls tn0 tn tb (Ne.symm hne)]

theorem restoreTables_result (entries : List ZipEntry) :
    ∀ (tbls tbls' : List (String × Table)),
    restoreTables tbls entries = .ok tbls' →
    allDistinct (entries.filterMap (fun e => csvEntryName? e.name)) = true →
    ∀ e ∈ entries, ∀ tn, csvEntryName? e.name = some tn →
    ∃ tb, zipTableOf e.csvRecords = .ok tb ∧ lookupTable tbls' tn = some tb := by
  induction entries with
  | nil =>
    intro _ _ _ _ e he
    cases he
  | cons e0 rest ih =>
    intro tbls tbls' h hdist e he tn hname
    unfold restoreTables at h
    cases hcsv : csvEntryName? e0.name <;> rw [hcsv] at h
    · have hdist' : allDistinct (rest.filterMap (fun e => csvEntryName? e.name)) = true := by
        simpa [List.filterMap_cons, hcsv] using hdist
      rcases List.mem_cons.mp he with he0 | he1
      · subst he0
        rw [hcsv] at hname
        cases hname
      · exact ih tbls tbls' h hdist' e he1 tn hname
    · case some tn0 =>
      have h2 : (match restoreTableFromZip tbls tn0 e0.csvRecords with
          | .error err => (.error err : Except ErrKind (List (String × Table)))
          | .ok tbls1 => restoreTables tbls1 rest) = .ok tbls' := h
      clear h
      cases hr : restoreTableFromZip tbls tn0 e0.csvRecords <;> rw [hr] at h2
      · simp at h2
      · case ok tbls1 =>
        have hdcons : allDistinct (tn0 :: rest.filterMap (fun e => csvEntryName? e.name)) = true := by
          simpa [List.filterMap_cons, hcsv] using hdist
        simp only [allDistinct, Bool.and_eq_true, Bool.not_eq_true'] at hdcons
        obtain ⟨hnotin, hdist'⟩ := hdcons
        rcases List.mem_cons.mp he with he0 | he1
        · rw [he0] at hname ⊢
          rw [hcsv] at hname
          injection hname with hname
          rw [← hname]
          obtain ⟨tb, htb, heq⟩ := restoreTableFromZip_ok tbls tn0 e0.csvRecords tbls1 hr
          refine ⟨tb, htb, ?_⟩
          have hpres : lookupTable tbls' tn0 = lookupTable tbls1 tn0 := by
            refine restoreTables_preserves rest tbls1 tbls' tn0 h2 ?_
            intro e' he' hbad
            rw [contains_false_iff] at hnotin
            refine hnotin ?_
            rw [List.mem_filterMap]
            exact ⟨e', he', hbad⟩
          rw [hpres, heq, lookupTable_setTable_self]
        · exact ih tbls1 tbls' h2 hdist' e he1 tn hname

/-- C2 (counterexample): the claim says that on success the archive's
metadata replaces the old TableMeta rows; restoring an archive that holds a
table CSV but no `_metadata.json` succeeds yet leaves the pre-existing
TableMeta rows untouched. -/
theorem restoreDB_keeps_old_metas :
    (restoreDB ⟨[], [⟨"old", ["a:TEXT"]⟩]⟩
        [⟨"t.csv", [some ["a"], some ["1"]], []⟩]).1.status = 200
    ∧ (restoreDB ⟨[], [⟨"old", ["a:TEXT"]⟩]⟩
        [⟨"t.csv", [some ["a"], some ["1"]], []⟩]).2.metas = [⟨"old", ["a:TEXT"]⟩]
    ∧ parsedMetas [⟨"t.csv", [some ["a"], some ["1"]], []⟩] = [] := by
  refine ⟨by decide, by decide, rfl⟩

/-- C2 (amended): the full restore is atomic — on any failure (unreadable
CSV header or row, failing DROP/CREATE/INSERT, failing TableMeta
delete/insert) the whole transaction rolls back and the state is exactly as
before — and on success each archive table replaces its old version, while
the TableMeta rows are replaced by the archive's metadata only when that
metadata has at least one record; an archive without metadata records
leaves the existing TableMeta rows unchanged. -/
theorem restoreDB_atomic (st : DBState) (ar : List ZipEntry) :
    ((restoreDB st ar).1.status ≠ 200 → (restoreDB st ar).2 = st)
    ∧ ((restoreDB st ar).1.status = 200 →
        (restoreDB st ar).2.metas
          = (if (parsedMetas ar).isEmpty then st.metas else parsedMetas ar))
    ∧ ((restoreDB st ar).1.status = 200 →
        allDistinct (ar.filterMap (fun e => csvEntryName? e.name)) = true →
        ∀ e ∈ ar, ∀ tn, csvEntryName? e.name = some tn →
        ∃ tb, zipTableOf e.csvRecords = .ok tb
          ∧ lookupTable (restoreDB st ar).2.tables tn = some tb) := by
  cases hr : restoreTables st.tables ar with
  | error err =>
    have hval : restoreDB st ar = (⟨500, .execError⟩, st) := by
      unfold restoreDB
      rw [hr]
    refine ⟨fun _ => by rw [hval], fun h2 => ?_, fun h2 => ?_⟩
    · rw [hval] at h2
      simp at h2
    · rw [hval] at h2
      simp at h2
  | ok tbls' =>
    cases hm : (parsedMetas ar).isEmpty with
    | true =>
      have hval : restoreDB st ar = (⟨200, .noError⟩, ⟨tbls', st.metas⟩) := by
        unfold restoreDB
        rw [hr]
        simp [hm]
      refine ⟨fun hc => ?_, fun _ => ?_, fun _ hdist e he tn hname => ?_⟩
      · rw [hval] at hc
        exact absurd rfl hc
      · rw [hval]
        rfl
      · obtain ⟨tb, htb, hlk⟩ := restoreTables_result ar st.tables tbls' hr hdist e he tn hname
        exact ⟨tb, htb, by rw [hval]; exact hlk⟩
    | false =>
      cases hd : allDistinct ((parsedMetas ar).map (fun m => m.name)) with
      | false =>
        have hval : restoreDB st ar = (⟨500, .execError⟩, st) := by
          unfold restoreDB
          rw [hr]
          simp [hm, hd]
        refine ⟨fun _ => by rw [hval], fun h2 => ?_, fun h2 => ?_⟩
        · rw [hval] at h2
          simp at h2
        · rw [hval] at h2
          simp at h2
      | true =>
        have hval : restoreDB st ar = (⟨200, .noError⟩, ⟨tbls', parsedMetas ar⟩) := by
          unfold restoreDB
          rw [hr]
          simp [hm, hd]
        refine ⟨fun hc => ?_, fun _ => ?_, fun _ hdist e he tn hname => ?_⟩
        · rw [hval] at hc
          exact absurd rfl hc
        · rw [hval]
          rfl
        · obtain ⟨tb, htb, hlk⟩ := restoreTables_result ar st.tables tbls' hr hdist e he tn hname
          exact ⟨tb, htb, by rw [hval]; exact hlk⟩

/-- Witness for `restoreDB_atomic`: an archive whose only table CSV is
empty (its header cannot be read) makes the restore fail, and the state —
tables and metadata — is exactly the pre-restore one. -/
theorem restoreDB_atomic_witness :
    (restoreDB ⟨[("k", Table.mk [⟨"a", "TEXT"⟩] [])], []⟩ [⟨"t.csv", [], []⟩]).1.status ≠ 200
    ∧ (restoreDB ⟨[("k", Table.mk [⟨"a", "TEXT"⟩] [])], []⟩ [⟨"t.csv", [], []⟩]).2
        = ⟨[("k", Table.mk [⟨"a", "TEXT"⟩] [])], []⟩ :=
  ⟨by decide,
    (restoreDB_atomic ⟨[("k", Table.mk [⟨"a", "TEXT"⟩] [])], []⟩
      [⟨"t.csv", [], []⟩]).1 (by decide)⟩

/-- Witness for `restore_null_asymmetry` on a one-column table and the
record `["NULL"]`. -/
theorem restore_null_asymmetry_witness :
    ((Table.mk [⟨"a", "TEXT"⟩] []).cols.map (fun c => c.name)).Nodup
    ∧ insertRow (fun _ _ => true) (Table.mk [⟨"a", "TEXT"⟩] [])
        ((Table.mk [⟨"a", "TEXT"⟩] []).cols.map (fun c => c.name))
        (["NULL"].map restoreCellVal)
      = .ok { Table.mk [⟨"a", "TEXT"⟩] [] with rows := [] ++ [["NULL"].map restoreCellVal] }
    ∧ zipRestoreRows (Table.mk [⟨"a", "TEXT"⟩] []) [some ["NULL"]]
      = .ok { Table.mk [⟨"a", "TEXT"⟩] [] with rows := [] ++ [["NULL"].map zipRestoreCellVal] } := by
  have h := restore_null_asymmetry (Table.mk [⟨"a", "TEXT"⟩] []) ["NULL"]
    (by decide) (by decide)
  exact ⟨by decide, h.1, h.2.1⟩

end DBService
